import Mathlib

/-
Shallow embedding of the Neon Defense simulation core
(src/neon-defense-game.js).

JS floating-point quantities are modelled as exact rationals (all the
arithmetic the game performs on them is +, -, *, / by constants), the
integer-valued counters as Nat/Int.  Every call to Math.random() is
modelled as an explicit rational parameter, so random behaviour becomes
universally quantified nondeterminism.  React state updates become
explicit state passing on a `World` record; the `useEffect` intervals
(particle loop, spawn timer, game loop), the keypress handler and the
start/reset/combo-timeout callbacks become the events of a step
relation `Reachable`.
-/

-- Game constants (source lines 4-10).
def GAME_WIDTH : ℚ := 800

def GAME_HEIGHT : ℚ := 550

def BUILDING_COUNT : ℕ := 8

def TARGET_SCORE : ℕ := 10000

def INITIAL_LETTER_SPEED : ℚ := 8/10

def INITIAL_SPAWN_INTERVAL : ℚ := 2000

def MAX_PARTICLES : ℕ := 50

-- Letter configuration (source lines 13-42).  The glow strings are
-- render-only and omitted; the remaining fields are kept so that the
-- `letter.type === LETTER_TYPES.POWER` / `=== LETTER_TYPES.FAST`
-- identity tests are faithfully decided by structural equality
-- (the four records are pairwise distinct).
structure LetterType where
  color : String
  points : ℕ
  probability : ℚ
  particleCount : ℕ
  deriving DecidableEq, Repr

def NORMAL : LetterType :=
  { color := "#00ff00", points := 100, probability := 65/100, particleCount := 8 }

def FAST : LetterType :=
  { color := "#ff0000", points := 200, probability := 15/100, particleCount := 12 }

def BONUS : LetterType :=
  { color := "#ffff00", points := 300, probability := 12/100, particleCount := 15 }

def POWER : LetterType :=
  { color := "#00ffff", points := 150, probability := 8/100, particleCount := 20 }

def LETTER_TYPES : List LetterType := [NORMAL, FAST, BONUS, POWER]

-- Entity records (source lines 152-159, 200-209, 272-283).
-- `char` is the 0..25 index into 'ABCDEFGHIJKLMNOPQRSTUVWXYZ'.
-- The cosmetic `scale` field (1 + 0.1*sin(Date.now()/200)) is render
-- feedback driven by the wall clock and is not part of any claim; it
-- is omitted from the letter record.
structure Letter where
  id : ℤ
  char : ℕ
  type : LetterType
  x : ℚ
  y : ℚ
  rotation : ℚ
  speed : ℚ
  deriving DecidableEq, Repr

structure Building where
  id : ℕ
  width : ℚ
  height : ℚ
  x : ℚ
  destroyed : Bool
  health : ℤ
  shaking : Bool
  deriving DecidableEq, Repr

structure Particle where
  id : ℚ
  x : ℚ
  y : ℚ
  color : String
  velocity : ℚ × ℚ
  life : ℚ
  size : ℚ
  deriving DecidableEq, Repr

-- GameState (source lines 127-139).
structure GameState where
  score : ℕ
  level : ℕ
  combo : ℕ
  cityHealth : ℤ
  highScore : ℕ
  lastComboTime : ℤ
  lastPoints : ℕ
  isActive : Bool
  gameOver : Bool
  victory : Bool
  powerUpActive : Bool
  deriving DecidableEq, Repr

structure World where
  gs : GameState
  buildings : List Building
  letters : List Letter
  particles : List Particle
  deriving DecidableEq, Repr

-- Initial state (source lines 127-144) and the building-initialisation
-- effect (source lines 151-161).  `wr i` and `hr i` are the two
-- Math.random() draws used for building i's width and height.
def initGameState : GameState :=
  { score := 0
    level := 1
    combo := 0
    cityHealth := 100
    highScore := 0
    lastComboTime := 0
    lastPoints := 0
    isActive := false
    gameOver := false
    victory := false
    powerUpActive := false }

def initBuildings (wr hr : ℕ → ℚ) : List Building :=
  (List.range BUILDING_COUNT).map fun i =>
    { id := i
      width := 30 + wr i * 40
      height := 100 + hr i * 200
      x := (i : ℚ) * GAME_WIDTH / (BUILDING_COUNT : ℚ) + 10
      destroyed := false
      health := 3
      shaking := false }

def initWorld (wr hr : ℕ → ℚ) : World :=
  { gs := initGameState
    buildings := initBuildings wr hr
    letters := []
    particles := [] }

-- Particle system tick (source lines 164-186).
def stepParticle (p : Particle) : Particle :=
  { p with
    x := p.x + p.velocity.1
    y := p.y + p.velocity.2
    velocity := (p.velocity.1 * (98/100), p.velocity.2 * (98/100) + 2/10)
    life := p.life - 2/100 }

def particleTick (ps : List Particle) : List Particle :=
  ((ps.map stepParticle).filter fun p => decide (0 < p.life)).take MAX_PARTICLES

-- Explosion burst (source lines 271-284).  `rand k` bundles the four
-- Math.random() draws consumed by particle k, in source order:
-- (id draw, velocity-x draw, velocity-y draw, size draw).
def mkExplosionParticles (x y : ℚ) (rand : ℕ → ℚ × ℚ × ℚ × ℚ) : List Particle :=
  (List.range 20).map fun k =>
    { id := (rand k).1
      x := x
      y := y
      color := "#ff61ef"
      velocity := (((rand k).2.1 - 5/10) * 8, ((rand k).2.2.1 - 4) * 4)
      life := 1
      size := 4 + (rand k).2.2.2 * 4 }

-- `setParticles(prev => [...prev, ...newParticles].slice(0, MAX_PARTICLES))`
def appendExplosion (ps newPs : List Particle) : List Particle :=
  (ps ++ newPs).take MAX_PARTICLES

-- Collision resolver (source lines 240-268).
def hitPred (lx : ℚ) (b : Building) : Bool :=
  !b.destroyed && decide (b.x ≤ lx) && decide (lx ≤ b.x + b.width)

-- `buildings.findIndex(...)`, also returning the found record.
def findHit (lx : ℚ) : List Building → Option (ℕ × Building)
  | [] => none
  | b :: bs =>
    if hitPred lx b then some (0, b)
    else (findHit lx bs).map fun p => (p.1 + 1, p.2)

def hitBuilding (b : Building) : Building :=
  { b with
    health := b.health - 1
    destroyed := decide (b.health - 1 ≤ 0)
    shaking := true }

-- `prev.map((b, i) => i === hitBuildingIndex ? {...} : b)`
def damageAt : ℕ → List Building → List Building
  | _, [] => []
  | 0, b :: bs => hitBuilding b :: bs
  | i + 1, b :: bs => b :: damageAt i bs

def handleLetterCollision (rand : ℕ → ℚ × ℚ × ℚ × ℚ) (letter : Letter)
    (w : World) : World :=
  match findHit letter.x w.buildings with
  | none => w
  | some (i, b) =>
    if b.health - 1 ≤ 0 then
      { w with
        buildings := damageAt i w.buildings
        gs := { w.gs with cityHealth := max 0 (w.gs.cityHealth - 10) }
        particles := appendExplosion w.particles
          (mkExplosionParticles (b.x + b.width / 2) (GAME_HEIGHT - b.height / 2) rand) }
    else { w with buildings := damageAt i w.buildings }

-- The `!gameState.isActive || gameState.gameOver || gameState.victory`
-- early-return guard shared by the spawn timer, the game loop and the
-- key handler (source lines 190, 217, 292).
def activeGate (gs : GameState) : Bool :=
  gs.isActive && !gs.gameOver && !gs.victory

-- Letter motion (source lines 220-225).
def moveLetter (gs : GameState) (l : Letter) : Letter :=
  { l with
    y := l.y + l.speed * (if gs.powerUpActive then 5/10 else 1)
    rotation := l.rotation + 1 }

-- Impacting letters are handed to the collision resolver one after the
-- other; `rand k` supplies the explosion draws for the k-th impact.
def resolveImpacts (rand : ℕ → ℕ → ℚ × ℚ × ℚ × ℚ) :
    ℕ → List Letter → World → World
  | _, [], w => w
  | k, l :: ls, w => resolveImpacts rand (k + 1) ls (handleLetterCollision (rand k) l w)

-- Game loop tick (source lines 216-237): move every letter, remove the
-- ones with y >= GAME_HEIGHT - 20 and resolve their collisions.
def tickWorld (rand : ℕ → ℕ → ℚ × ℚ × ℚ × ℚ) (w : World) : World :=
  if activeGate w.gs then
    let moved := w.letters.map (moveLetter w.gs)
    { resolveImpacts rand 0 (moved.filter fun l => decide (GAME_HEIGHT - 20 ≤ l.y)) w with
      letters := moved.filter fun l => decide (l.y < GAME_HEIGHT - 20) }
  else w

-- Particle loop tick (source lines 164-186), guarded by
-- `!gameState.isActive || particles.length === 0`.
def particleStep (w : World) : World :=
  if w.gs.isActive && !w.particles.isEmpty then
    { w with particles := particleTick w.particles }
  else w

-- `letters.findIndex(l => l.char === key)` (source line 295).
def findLetter (key : ℕ) : List Letter → Option (ℕ × Letter)
  | [] => none
  | l :: ls =>
    if l.char = key then some (0, l)
    else (findLetter key ls).map fun p => (p.1 + 1, p.2)

-- Keyboard handler (source lines 291-320).  `now` is Date.now().
def handleKeyPress (now : ℤ) (key : ℕ) (rand : ℕ → ℚ × ℚ × ℚ × ℚ)
    (w : World) : World :=
  if activeGate w.gs then
    match findLetter key w.letters with
    | none => w
    | some (i, l) =>
      let newCombo := if now - w.gs.lastComboTime < 1000 then w.gs.combo + 1 else 1
      let points := l.type.points * min newCombo 10
      { w with
        particles := appendExplosion w.particles (mkExplosionParticles l.x l.y rand)
        letters := w.letters.eraseIdx i
        gs := { w.gs with
          score := w.gs.score + points
          combo := newCombo
          lastComboTime := now
          lastPoints := points
          powerUpActive := if l.type = POWER then true else w.gs.powerUpActive } }
  else w

-- Spawner (source lines 189-213).
-- `Object.values(LETTER_TYPES).find(type => Math.random() < type.probability)`
-- draws a fresh random per inspected type; `d k` is the k-th draw.
def chooseTypeAux (d : ℕ → ℚ) : ℕ → List LetterType → Option LetterType
  | _, [] => none
  | k, t :: ts => if d k < t.probability then some t else chooseTypeAux d (k + 1) ts

def chooseType (d : ℕ → ℚ) : LetterType :=
  (chooseTypeAux d 0 LETTER_TYPES).getD NORMAL

def spawnSpeed (level : ℕ) (t : LetterType) : ℚ :=
  INITIAL_LETTER_SPEED * (11/10) ^ (level - 1) * (if t = FAST then 15/10 else 1)

-- `tdraw` are the type-selection draws, `xd`/`cd`/`rd` the position,
-- character and rotation draws, `now` is Date.now() (the letter id).
def spawnLetter (now : ℤ) (tdraw : ℕ → ℚ) (xd cd rd : ℚ) (w : World) : World :=
  if activeGate w.gs then
    let t := chooseType tdraw
    { w with letters := w.letters ++
      [{ id := now
         char := (Int.floor (cd * 26)).toNat
         type := t
         x := xd * (GAME_WIDTH - 20)
         y := 0
         rotation := rd * 360
         speed := spawnSpeed w.gs.level t }] }
  else w

-- Start command (source lines 356-361).
def startGame (w : World) : World :=
  if !w.gs.isActive then { w with gs := { w.gs with isActive := true } } else w

-- The combo-timeout callback (source lines 316-318).
def comboResetW (w : World) : World :=
  { w with gs := { w.gs with combo := 0 } }

-- Reset command (source lines 329-353).
def resetGame (wr hr : ℕ → ℚ) (w : World) : World :=
  { gs :=
      { score := 0
        level := 1
        combo := 0
        cityHealth := 100
        highScore := max w.gs.score w.gs.highScore
        lastComboTime := 0
        lastPoints := 0
        isActive := false
        gameOver := false
        victory := false
        powerUpActive := false }
    buildings := initBuildings wr hr
    letters := []
    particles := [] }

-- The reachable states of one simulation instance: the initial mount,
-- followed by any interleaving of the timer callbacks and the input
-- handlers, each with arbitrary random draws and wall-clock readings.
inductive Reachable : World → Prop where
  | init (wr hr : ℕ → ℚ) : Reachable (initWorld wr hr)
  | start (w : World) : Reachable w → Reachable (startGame w)
  | tick (w : World) (rand : ℕ → ℕ → ℚ × ℚ × ℚ × ℚ) :
      Reachable w → Reachable (tickWorld rand w)
  | ptick (w : World) : Reachable w → Reachable (particleStep w)
  | spawn (w : World) (now : ℤ) (tdraw : ℕ → ℚ) (xd cd rd : ℚ) :
      Reachable w → Reachable (spawnLetter now tdraw xd cd rd w)
  | key (w : World) (now : ℤ) (k : ℕ) (rand : ℕ → ℚ × ℚ × ℚ × ℚ) :
      Reachable w → Reachable (handleKeyPress now k rand w)
  | comboReset (w : World) : Reachable w → Reachable (comboResetW w)
  | reset (w : World) (wr hr : ℕ → ℚ) : Reachable w → Reachable (resetGame wr hr w)

/-
Invariant machinery.  `InvB` is the per-building health/destroyed
invariant, `destroyedCount` counts destroyed buildings, and `InvW`
is the inductive invariant carried through every event of `Reachable`.
-/

def InvB (b : Building) : Prop :=
  0 ≤ b.health ∧ (b.destroyed = true ↔ b.health = 0)

def destroyedCount (bs : List Building) : ℕ :=
  (bs.filter fun b => b.destroyed).length

def InvW (w : World) : Prop :=
  w.buildings.length = BUILDING_COUNT ∧
  (∀ b ∈ w.buildings, InvB b) ∧
  w.gs.cityHealth = 100 - 10 * (destroyedCount w.buildings : ℤ) ∧
  (∀ l ∈ w.letters, 0 < l.speed) ∧
  w.particles.length ≤ MAX_PARTICLES

-- Validity of a stream of Math.random() draws: every component of
-- every draw lies in [0, 1).
def unitDraws (rand : ℕ → ℚ × ℚ × ℚ × ℚ) : Prop :=
  ∀ k, (0 ≤ (rand k).1 ∧ (rand k).1 < 1) ∧
    (0 ≤ (rand k).2.1 ∧ (rand k).2.1 < 1) ∧
    (0 ≤ (rand k).2.2.1 ∧ (rand k).2.2.1 < 1) ∧
    (0 ≤ (rand k).2.2.2 ∧ (rand k).2.2.2 < 1)

/-
Concrete inputs used to exercise the theorems below on explicit data.
-/

def zeroFun : ℕ → ℚ := fun _ => 0

def oneFun : ℕ → ℚ := fun _ => 1

def zero4 : ℕ → ℚ × ℚ × ℚ × ℚ := fun _ => (0, 0, 0, 0)

def zero42 : ℕ → ℕ → ℚ × ℚ × ℚ × ℚ := fun _ _ => (0, 0, 0, 0)

-- The first building produced by `initBuildings zeroFun zeroFun`.
def bInit : Building :=
  { id := 0, width := 30, height := 100, x := 10, destroyed := false, health := 3, shaking := false }

-- A state one destruction away from zero city health, and a letter
-- that lands on its last surviving building.
def bC1 : Building :=
  { id := 0, width := 30, height := 100, x := 10, destroyed := false, health := 1, shaking := false }

def wC1 : World :=
  { gs := { initGameState with isActive := true, cityHealth := 10 }
    buildings := [bC1]
    letters := []
    particles := [] }

def lC1 : Letter :=
  { id := 0, char := 0, type := NORMAL, x := 20, y := 530, rotation := 0, speed := 8/10 }

-- A state 100 points short of the target score, holding one live
-- NORMAL letter 'A'.
def lC2 : Letter :=
  { id := 0, char := 0, type := NORMAL, x := 20, y := 100, rotation := 0, speed := 8/10 }

def wC2 : World :=
  { gs := { initGameState with isActive := true, score := 9900 }
    buildings := []
    letters := [lC2]
    particles := [] }

-- Two buildings: a destroyed one whose span contains the letter, and a
-- live one further right that must be the selected target.
def b4a : Building :=
  { id := 0, width := 200, height := 100, x := 10, destroyed := true, health := 0, shaking := false }

def b4b : Building :=
  { id := 1, width := 40, height := 100, x := 110, destroyed := false, health := 3, shaking := false }

def w4 : World :=
  { gs := { initGameState with isActive := true }
    buildings := [b4a, b4b]
    letters := []
    particles := [] }

def l4 : Letter :=
  { id := 0, char := 0, type := NORMAL, x := 120, y := 530, rotation := 0, speed := 8/10 }

-- A live BONUS letter and a state with an ongoing combo streak.
def l5 : Letter :=
  { id := 0, char := 0, type := BONUS, x := 100, y := 50, rotation := 0, speed := 8/10 }

def w5 : World :=
  { gs := { initGameState with isActive := true, combo := 3, lastComboTime := 100 }
    buildings := []
    letters := [l5]
    particles := [] }

-- A particle store already at the cap, and a fresh burst.
def prev50 : List Particle :=
  (List.range 50).map fun (k : ℕ) =>
    { id := (k : ℚ), x := 0, y := 0, color := "#ff61ef", velocity := (0, 0), life := 1, size := 4 }

def new20 : List Particle := mkExplosionParticles 0 0 zero4

-- A reachable world holding one freshly spawned letter.
def w10 : World := spawnLetter 0 oneFun 0 0 0 (startGame (initWorld zeroFun zeroFun))

-- The image of that letter after one game-loop tick.
def l10 : Letter :=
  { id := 0, char := 0, type := NORMAL, x := 0, y := 4/5, rotation := 1, speed := 4/5 }

lemma destroyedCount_le (bs : List Building) : destroyedCount bs ≤ bs.length :=
  List.length_filter_le _ _

lemma length_particleTick_le (ps : List Particle) :
    (particleTick ps).length ≤ MAX_PARTICLES := by
  simp [particleTick]

lemma length_appendExplosion_le (ps newPs : List Particle) :
    (appendExplosion ps newPs).length ≤ MAX_PARTICLES := by
  simp [appendExplosion]

lemma length_damageAt (i : ℕ) (bs : List Building) :
    (damageAt i bs).length = bs.length := by
  induction bs generalizing i with
  | nil => cases i <;> rfl
  | cons b bs ih =>
    cases i with
    | zero => simp [damageAt]
    | succ j => simp [damageAt, ih]

lemma hitPred_eq_true {lx : ℚ} {b : Building} (h : hitPred lx b = true) :
    b.destroyed = false ∧ b.x ≤ lx ∧ lx ≤ b.x + b.width := by
  simp [hitPred, Bool.and_eq_true, Bool.not_eq_true'] at h
  exact ⟨h.1.1, h.1.2, h.2⟩

lemma InvB_hitBuilding {b : Building} (h : InvB b) (hd : b.destroyed = false) :
    InvB (hitBuilding b) := by
  obtain ⟨h0, hiff⟩ := h
  have hne : b.health ≠ 0 := fun he => by simp [hiff.mpr he] at hd
  constructor
  · simp only [hitBuilding]
    omega
  · simp only [hitBuilding, decide_eq_true_eq]
    omega

lemma findHit_damage (lx : ℚ) :
    ∀ (bs : List Building), (∀ b ∈ bs, InvB b) →
    ∀ i b, findHit lx bs = some (i, b) →
      b.destroyed = false ∧ 1 ≤ b.health ∧
      (∀ b' ∈ damageAt i bs, InvB b') ∧
      destroyedCount (damageAt i bs) =
        destroyedCount bs + (if b.health - 1 ≤ 0 then 1 else 0) := by
  intro bs
  induction bs with
  | nil => intro _ i b h; simp [findHit] at h
  | cons b0 bs ih =>
    intro hinv i b hfind
    have hinv0 : InvB b0 := hinv b0 (by simp)
    have hinvt : ∀ b' ∈ bs, InvB b' := fun b' hb' => hinv b' (by simp [hb'])
    by_cases hp : hitPred lx b0 = true
    · rw [findHit, if_pos hp] at hfind
      simp only [Option.some.injEq, Prod.mk.injEq] at hfind
      obtain ⟨rfl, rfl⟩ := hfind
      obtain ⟨hd, _, _⟩ := hitPred_eq_true hp
      have hne : b0.health ≠ 0 := fun he => by simp [hinv0.2.mpr he] at hd
      have h1 : 1 ≤ b0.health := by have := hinv0.1; omega
      refine ⟨hd, h1, ?_, ?_⟩
      · intro b' hb'
        rw [damageAt] at hb'
        rcases List.mem_cons.mp hb' with h' | h'
        · exact h' ▸ InvB_hitBuilding hinv0 hd
        · exact hinvt _ h'
      · rw [damageAt]
        simp only [destroyedCount, List.filter_cons, hd, hitBuilding,
          Bool.false_eq_true, if_false]
        by_cases hc : b0.health - 1 ≤ 0
        · simp [hc]
        · simp [hc]
    · rw [findHit, if_neg hp] at hfind
      rcases Option.map_eq_some'.mp hfind with ⟨⟨j, b'⟩, hj, hjb⟩
      simp only [Prod.mk.injEq] at hjb
      obtain ⟨rfl, rfl⟩ := hjb
      obtain ⟨hd, h1, hrest, hcount⟩ := ih hinvt j b' hj
      refine ⟨hd, h1, ?_, ?_⟩
      · intro b'' hb''
        rw [damageAt] at hb''
        rcases List.mem_cons.mp hb'' with h' | h'
        · exact h' ▸ hinv0
        · exact hrest _ h'
      · rw [damageAt]
        simp only [destroyedCount, List.filter_cons] at hcount ⊢
        cases h0 : b0.destroyed <;> by_cases hc : b'.health - 1 ≤ 0 <;>
          simp only [hc, Bool.false_eq_true, if_true, if_false,
            List.length_cons, ite_true, ite_false] at hcount ⊢ <;>
            omega

lemma collision_letters (rand : ℕ → ℚ × ℚ × ℚ × ℚ) (letter : Letter) (w : World) :
    (handleLetterCollision rand letter w).letters = w.letters := by
  unfold handleLetterCollision
  cases findHit letter.x w.buildings with
  | none => rfl
  | some p =>
    obtain ⟨i, b⟩ := p
    by_cases hc : b.health - 1 ≤ 0 <;> simp [hc]

lemma collision_gameOver (rand : ℕ → ℚ × ℚ × ℚ × ℚ) (letter : Letter) (w : World) :
    (handleLetterCollision rand letter w).gs.gameOver = w.gs.gameOver := by
  unfold handleLetterCollision
  cases findHit letter.x w.buildings with
  | none => rfl
  | some p =>
    obtain ⟨i, b⟩ := p
    by_cases hc : b.health - 1 ≤ 0 <;> simp [hc]

lemma collision_preserves (rand : ℕ → ℚ × ℚ × ℚ × ℚ) (letter : Letter) (w : World)
    (h : InvW w) : InvW (handleLetterCollision rand letter w) := by
  obtain ⟨hlen, hb, hch, hls, hp⟩ := h
  unfold handleLetterCollision
  cases hfind : findHit letter.x w.buildings with
  | none => exact ⟨hlen, hb, hch, hls, hp⟩
  | some p =>
    obtain ⟨i, b⟩ := p
    obtain ⟨hd, h1, hrest, hcount⟩ := findHit_damage letter.x w.buildings hb i b hfind
    have hdcle : destroyedCount w.buildings ≤ BUILDING_COUNT :=
      hlen ▸ destroyedCount_le w.buildings
    by_cases hc : b.health - 1 ≤ 0
    · simp only [hc, if_true, ite_true]
      refine ⟨by simp [length_damageAt, hlen], hrest, ?_, hls, length_appendExplosion_le _ _⟩
      simp only [hcount, hc, if_true, ite_true]
      have h20 : (0 : ℤ) ≤ w.gs.cityHealth - 10 := by
        rw [hch]
        have : destroyedCount w.buildings ≤ 8 := by
          simpa [BUILDING_COUNT] using hdcle
        omega
      rw [max_eq_right h20, hch]
      push_cast
      ring
    · simp only [hc, if_false, ite_false]
      refine ⟨by simp [length_damageAt, hlen], hrest, ?_, hls, hp⟩
      simp only [hcount, hc, if_false, ite_false]
      rw [hch]
      norm_num

lemma resolveImpacts_preserves (rand : ℕ → ℕ → ℚ × ℚ × ℚ × ℚ) :
    ∀ (ls : List Letter) (k : ℕ) (w : World), InvW w →
      InvW (resolveImpacts rand k ls w) := by
  intro ls
  induction ls with
  | nil => intro k w h; exact h
  | cons l ls ih =>
    intro k w h
    exact ih (k + 1) _ (collision_preserves (rand k) l w h)

lemma resolveImpacts_letters (rand : ℕ → ℕ → ℚ × ℚ × ℚ × ℚ) :
    ∀ (ls : List Letter) (k : ℕ) (w : World),
      (resolveImpacts rand k ls w).letters = w.letters := by
  intro ls
  induction ls with
  | nil => intro k w; rfl
  | cons l ls ih =>
    intro k w
    rw [resolveImpacts, ih, collision_letters]

lemma tick_preserves (rand : ℕ → ℕ → ℚ × ℚ × ℚ × ℚ) (w : World) (h : InvW w) :
    InvW (tickWorld rand w) := by
  unfold tickWorld
  by_cases hg : activeGate w.gs = true
  · simp only [hg, if_true, ite_true]
    have hX := resolveImpacts_preserves rand
      ((w.letters.map (moveLetter w.gs)).filter fun l => decide (GAME_HEIGHT - 20 ≤ l.y))
      0 w h
    obtain ⟨hlen, hb, hch, _, hp⟩ := hX
    refine ⟨hlen, hb, hch, ?_, hp⟩
    intro l' hl'
    simp only [List.mem_filter, List.mem_map] at hl'
    obtain ⟨⟨l, hl, rfl⟩, _⟩ := hl'
    have : (moveLetter w.gs l).speed = l.speed := rfl
    rw [this]
    exact h.2.2.2.1 l hl
  · simp only [hg, if_false, ite_false]
    exact h

lemma spawnSpeed_pos (level : ℕ) (t : LetterType) : 0 < spawnSpeed level t := by
  unfold spawnSpeed INITIAL_LETTER_SPEED
  have h1 : (0 : ℚ) < 8/10 := by norm_num
  have h2 : (0 : ℚ) < (11/10) ^ (level - 1) := pow_pos (by norm_num) _
  by_cases ht : t = FAST <;> simp only [ht, if_true, if_false, ite_true, ite_false] <;> positivity

lemma spawn_preserves (now : ℤ) (tdraw : ℕ → ℚ) (xd cd rd : ℚ) (w : World)
    (h : InvW w) : InvW (spawnLetter now tdraw xd cd rd w) := by
  unfold spawnLetter
  by_cases hg : activeGate w.gs = true
  · simp only [hg, if_true, ite_true]
    obtain ⟨hlen, hb, hch, hls, hp⟩ := h
    refine ⟨hlen, hb, hch, ?_, hp⟩
    intro l hl
    rcases List.mem_append.mp hl with h' | h'
    · exact hls l h'
    · rcases List.mem_singleton.mp h' with rfl
      exact spawnSpeed_pos _ _
  · simp only [hg, if_false, ite_false]
    exact h

lemma key_preserves (now : ℤ) (k : ℕ) (rand : ℕ → ℚ × ℚ × ℚ × ℚ) (w : World)
    (h : InvW w) : InvW (handleKeyPress now k rand w) := by
  unfold handleKeyPress
  by_cases hg : activeGate w.gs = true
  · simp only [hg, if_true, ite_true]
    cases hfind : findLetter k w.letters with
    | none => exact h
    | some p =>
      obtain ⟨i, l⟩ := p
      obtain ⟨hlen, hb, hch, hls, hp⟩ := h
      refine ⟨hlen, hb, hch, ?_, length_appendExplosion_le _ _⟩
      intro l' hl'
      exact hls l' (List.eraseIdx_subset _ _ hl')
  · simp only [hg, if_false, ite_false]
    exact h

lemma init_invariant (wr hr : ℕ → ℚ) : InvW (initWorld wr hr) := by
  refine ⟨?_, ?_, ?_, ?_, ?_⟩
  · simp [initWorld, initBuildings]
  · intro b hb
    simp only [initWorld, initBuildings, List.mem_map, List.mem_range] at hb
    obtain ⟨i, _, rfl⟩ := hb
    exact ⟨by norm_num, by simp⟩
  · have : destroyedCount (initBuildings wr hr) = 0 := by
      simp [destroyedCount, initBuildings, List.filter_eq_nil_iff]
    simp [initWorld, this, initGameState]
  · intro l hl
    simp [initWorld] at hl
  · simp [initWorld, MAX_PARTICLES]

lemma inv_reachable {w : World} (h : Reachable w) : InvW w := by
  induction h with
  | init wr hr => exact init_invariant wr hr
  | start w' _ ih =>
    unfold startGame
    split
    · exact ⟨ih.1, ih.2.1, ih.2.2.1, ih.2.2.2.1, ih.2.2.2.2⟩
    · exact ih
  | tick w' rand _ ih => exact tick_preserves rand w' ih
  | ptick w' _ ih =>
    unfold particleStep
    by_cases hg : (w'.gs.isActive && !w'.particles.isEmpty) = true
    · simp only [hg, if_true, ite_true]
      exact ⟨ih.1, ih.2.1, ih.2.2.1, ih.2.2.2.1, length_particleTick_le _⟩
    · simp only [hg, if_false, ite_false]
      exact ih
  | spawn w' now tdraw xd cd rd _ ih => exact spawn_preserves now tdraw xd cd rd w' ih
  | key w' now k rand _ ih => exact key_preserves now k rand w' ih
  | comboReset w' _ ih => exact ih
  | reset w' wr hr _ ih =>
    refine ⟨?_, ?_, ?_, ?_, ?_⟩
    · simp [resetGame, initBuildings]
    · intro b hb
      simp only [resetGame, initBuildings, List.mem_map, List.mem_range] at hb
      obtain ⟨i, _, rfl⟩ := hb
      exact ⟨by norm_num, by simp⟩
    · have : destroyedCount (initBuildings wr hr) = 0 := by
        simp [destroyedCount, initBuildings, List.filter_eq_nil_iff]
      simp [resetGame, this]
    · intro l hl
      simp [resetGame] at hl
    · simp [resetGame, MAX_PARTICLES]

lemma getElem?_damageAt :
    ∀ (bs : List Building) (i j : ℕ),
      (damageAt i bs)[j]? = if j = i then bs[j]?.map hitBuilding else bs[j]? := by
  intro bs
  induction bs with
  | nil => intro i j; cases i <;> simp [damageAt]
  | cons b bs ih =>
    intro i j
    cases i with
    | zero =>
      cases j with
      | zero => simp [damageAt]
      | succ j' => simp [damageAt]
    | succ i' =>
      cases j with
      | zero => simp [damageAt]
      | succ j' => simpa [damageAt] using ih i' j'

lemma findHit_spec (lx : ℚ) :
    ∀ (bs : List Building) (i : ℕ) (b : Building),
      findHit lx bs = some (i, b) →
        bs[i]? = some b ∧ hitPred lx b = true ∧
        ∀ j bj, j < i → bs[j]? = some bj → hitPred lx bj = false := by
  intro bs
  induction bs with
  | nil => intro i b h; simp [findHit] at h
  | cons b0 bs ih =>
    intro i b hfind
    by_cases hp : hitPred lx b0 = true
    · rw [findHit, if_pos hp] at hfind
      simp only [Option.some.injEq, Prod.mk.injEq] at hfind
      obtain ⟨rfl, rfl⟩ := hfind
      exact ⟨by simp, hp, fun j bj hj _ => absurd hj (Nat.not_lt_zero j)⟩
    · rw [findHit, if_neg hp] at hfind
      rcases Option.map_eq_some'.mp hfind with ⟨⟨j, b'⟩, hj, hjb⟩
      simp only [Prod.mk.injEq] at hjb
      obtain ⟨rfl, rfl⟩ := hjb
      obtain ⟨hget, hbp, hmin⟩ := ih j b' hj
      refine ⟨by simpa using hget, hbp, ?_⟩
      intro j' bj hj' hget'
      cases j' with
      | zero =>
        simp only [List.getElem?_cons_zero, Option.some.injEq] at hget'
        rw [← hget']
        exact Bool.not_eq_true _ ▸ hp
      | succ j'' =>
        exact hmin j'' bj (Nat.lt_of_succ_lt_succ hj') (by simpa using hget')

lemma findHit_eq_none (lx : ℚ) :
    ∀ (bs : List Building), (∀ b ∈ bs, hitPred lx b = false) →
      findHit lx bs = none := by
  intro bs
  induction bs with
  | nil => intro _; rfl
  | cons b0 bs ih =>
    intro h
    rw [findHit, if_neg (by simp [h b0 (by simp)]), ih fun b hb => h b (by simp [hb])]
    rfl

lemma collision_victory (rand : ℕ → ℚ × ℚ × ℚ × ℚ) (letter : Letter) (w : World) :
    (handleLetterCollision rand letter w).gs.victory = w.gs.victory := by
  unfold handleLetterCollision
  cases findHit letter.x w.buildings with
  | none => rfl
  | some p =>
    obtain ⟨i, b⟩ := p
    by_cases hc : b.health - 1 ≤ 0 <;> simp [hc]

lemma resolveImpacts_flags (rand : ℕ → ℕ → ℚ × ℚ × ℚ × ℚ) :
    ∀ (ls : List Letter) (k : ℕ) (w : World),
      (resolveImpacts rand k ls w).gs.gameOver = w.gs.gameOver ∧
      (resolveImpacts rand k ls w).gs.victory = w.gs.victory := by
  intro ls
  induction ls with
  | nil => intro k w; exact ⟨rfl, rfl⟩
  | cons l ls ih =>
    intro k w
    rw [resolveImpacts]
    refine ⟨?_, ?_⟩
    · rw [(ih (k + 1) _).1, collision_gameOver]
    · rw [(ih (k + 1) _).2, collision_victory]

-- Neither terminal flag is ever assigned by any event of the system:
-- the source contains no statement setting `gameOver` or `victory` to
-- true, so they stay false in every reachable state.
lemma reachable_flags {w : World} (h : Reachable w) :
    w.gs.gameOver = false ∧ w.gs.victory = false := by
  induction h with
  | init wr hr => exact ⟨rfl, rfl⟩
  | start w' _ ih =>
    unfold startGame
    split
    · exact ih
    · exact ih
  | tick w' rand _ ih =>
    unfold tickWorld
    split
    · have hfl := resolveImpacts_flags rand
        ((w'.letters.map (moveLetter w'.gs)).filter fun l => decide (GAME_HEIGHT - 20 ≤ l.y))
        0 w'
      exact ⟨hfl.1.trans ih.1, hfl.2.trans ih.2⟩
    · exact ih
  | ptick w' _ ih =>
    unfold particleStep
    split
    · exact ih
    · exact ih
  | spawn w' now tdraw xd cd rd _ ih =>
    unfold spawnLetter
    split
    · exact ih
    · exact ih
  | key w' now k rand _ ih =>
    unfold handleKeyPress
    split
    · cases findLetter k w'.letters with
      | none => exact ih
      | some p => exact ih
    · exact ih
  | comboReset w' _ ih => exact ih
  | reset w' wr hr _ ih => exact ⟨rfl, rfl⟩

/-- C1: the spec says `cityHealth` reaching 0 transitions the game to
`gameOver = true`, checked after each damage event.  The source has no
such check: no statement ever assigns `gameOver := true`, so `gameOver`
is false in every reachable state; and a damage event that brings
`cityHealth` to exactly 0 (possible only from the unreachable city
health value 10) still leaves `gameOver` false. -/
theorem claim1_gameover_never_triggered :
    (∀ w : World, Reachable w → w.gs.gameOver = false) ∧
    (handleLetterCollision zero4 lC1 wC1).gs.cityHealth = 0 ∧
    (handleLetterCollision zero4 lC1 wC1).gs.gameOver = false :=
  ⟨fun _ h => (reachable_flags h).1, by norm_num [handleLetterCollision, findHit,
    hitPred, wC1, bC1, lC1, zero4, initGameState], by norm_num [handleLetterCollision,
    findHit, hitPred, wC1, bC1, lC1, zero4, initGameState]⟩

/-- C1 witness: the always-false-`gameOver` component instantiated at
the initial world. -/
theorem claim1_witness : (initWorld zeroFun zeroFun).gs.gameOver = false :=
  claim1_gameover_never_triggered.1 _ (Reachable.init zeroFun zeroFun)

/-- C2: the spec says reaching `score >= targetScore` (10000)
transitions the game to `victory = true` and stops spawning.  The
source never assigns `victory := true`: a key press that brings the
score to exactly 10000 leaves `victory` false, the spawn gate still
open, and a subsequent spawn event still appends a letter. -/
theorem claim2_victory_never_triggered :
    (∀ w : World, Reachable w → w.gs.victory = false) ∧
    (handleKeyPress 5000 0 zero4 wC2).gs.score = TARGET_SCORE ∧
    (handleKeyPress 5000 0 zero4 wC2).gs.victory = false ∧
    (spawnLetter 6000 oneFun 0 0 0 (handleKeyPress 5000 0 zero4 wC2)).letters.length =
      (handleKeyPress 5000 0 zero4 wC2).letters.length + 1 :=
  ⟨fun _ h => (reachable_flags h).2, by decide, by decide, by decide⟩

/-- C2 witness: the always-false-`victory` component instantiated at
the initial world. -/
theorem claim2_witness : (initWorld zeroFun zeroFun).gs.victory = false :=
  claim2_victory_never_triggered.1 _ (Reachable.init zeroFun zeroFun)

/-- C3: under the default configuration (8 buildings of health 3, each
destruction costing 10 city health, clamped at 0), every reachable
state has `cityHealth >= 20`; in particular `cityHealth` never reaches
0, so the city-health-zero game-over condition is unreachable. -/
theorem claim3_cityhealth_lower_bound (w : World) (h : Reachable w) :
    20 ≤ w.gs.cityHealth ∧ w.gs.cityHealth ≠ 0 := by
  obtain ⟨hlen, _, hch, _, _⟩ := inv_reachable h
  have h8 : destroyedCount w.buildings ≤ 8 := by
    have := destroyedCount_le w.buildings
    rw [hlen] at this
    simpa [BUILDING_COUNT] using this
  refine ⟨?_, ?_⟩ <;> rw [hch] <;> omega

/-- C3 witness: instantiated at the initial world, whose city health
is 100. -/
theorem claim3_witness :
    20 ≤ (initWorld zeroFun zeroFun).gs.cityHealth ∧
    (initWorld zeroFun zeroFun).gs.cityHealth ≠ 0 :=
  claim3_cityhealth_lower_bound _ (Reachable.init zeroFun zeroFun)

/-- C7: the number of live particles never exceeds `MAX_PARTICLES`
(50): it is at most 50 in every reachable state, and both a particle
tick and an explosion burst applied to the current store produce at
most 50 particles. -/
theorem claim7_particle_cap (w : World) (h : Reachable w) :
    w.particles.length ≤ MAX_PARTICLES ∧
    (particleTick w.particles).length ≤ MAX_PARTICLES ∧
    ∀ x y rand,
      (appendExplosion w.particles (mkExplosionParticles x y rand)).length ≤ MAX_PARTICLES :=
  ⟨(inv_reachable h).2.2.2.2, length_particleTick_le _,
    fun _ _ _ => length_appendExplosion_le _ _⟩

/-- C7 witness: instantiated at the initial world. -/
theorem claim7_witness : (initWorld zeroFun zeroFun).particles.length ≤ MAX_PARTICLES :=
  (claim7_particle_cap _ (Reachable.init zeroFun zeroFun)).1

/-- C9: in every reachable state, every building has non-negative
health and is flagged destroyed exactly when its health is 0; the
invariant is established by initialization and reset and preserved by
collision resolution (which skips destroyed buildings). -/
theorem claim9_building_invariant (w : World) (h : Reachable w) :
    ∀ b ∈ w.buildings, 0 ≤ b.health ∧ (b.destroyed = true ↔ b.health = 0) :=
  fun b hb => (inv_reachable h).2.1 b hb

/-- C9 witness: instantiated at the first building of the initial
world. -/
theorem claim9_witness : 0 ≤ bInit.health ∧ (bInit.destroyed = true ↔ bInit.health = 0) :=
  claim9_building_invariant _ (Reachable.init zeroFun zeroFun) bInit (by
    norm_num [initWorld, initBuildings, bInit, zeroFun, BUILDING_COUNT, GAME_WIDTH,
      List.mem_map, List.mem_range])

lemma hitPred_false_iff (lx : ℚ) (b : Building) :
    hitPred lx b = false ↔ b.destroyed = true ∨ lx < b.x ∨ b.x + b.width < lx := by
  rw [← Bool.not_eq_true]
  simp only [hitPred, Bool.and_eq_true, Bool.not_eq_true', decide_eq_true_eq,
    not_and_or, not_le]
  constructor
  · rintro ((h | h) | h)
    · exact Or.inl (by simpa using h)
    · exact Or.inr (Or.inl h)
    · exact Or.inr (Or.inr h)
  · rintro (h | h | h)
    · exact Or.inl (Or.inl (by simp [h]))
    · exact Or.inl (Or.inr h)
    · exact Or.inr h

lemma collision_buildings {rand : ℕ → ℚ × ℚ × ℚ × ℚ} {letter : Letter} {w : World}
    {i : ℕ} {b : Building} (h : findHit letter.x w.buildings = some (i, b)) :
    (handleLetterCollision rand letter w).buildings = damageAt i w.buildings := by
  unfold handleLetterCollision
  rw [h]
  by_cases hc : b.health - 1 ≤ 0 <;> simp [hc]

/-- C4: collision resolution selects the first non-destroyed building,
in left-to-right index order, whose span `[x, x + width]` contains the
letter's x; it decrements exactly that building's health by 1 and
leaves every other building unchanged, so at most one building is
damaged per impact.  If no building matches, nothing changes at all. -/
theorem claim4_collision_selection (rand : ℕ → ℚ × ℚ × ℚ × ℚ) (letter : Letter)
    (w : World) :
    ((∀ b ∈ w.buildings, b.destroyed = true ∨ letter.x < b.x ∨ b.x + b.width < letter.x) →
        handleLetterCollision rand letter w = w) ∧
    (∀ i b, findHit letter.x w.buildings = some (i, b) →
        w.buildings[i]? = some b ∧
        b.destroyed = false ∧ b.x ≤ letter.x ∧ letter.x ≤ b.x + b.width ∧
        (∀ j bj, j < i → w.buildings[j]? = some bj →
            bj.destroyed = true ∨ letter.x < bj.x ∨ bj.x + bj.width < letter.x) ∧
        (handleLetterCollision rand letter w).buildings[i]? = some (hitBuilding b) ∧
        (hitBuilding b).health = b.health - 1 ∧
        ∀ j, j ≠ i → (handleLetterCollision rand letter w).buildings[j]? = w.buildings[j]?) := by
  constructor
  · intro hmiss
    have hnone : findHit letter.x w.buildings = none :=
      findHit_eq_none letter.x w.buildings fun b hb =>
        (hitPred_false_iff letter.x b).mpr (hmiss b hb)
    unfold handleLetterCollision
    rw [hnone]
  · intro i b hfind
    obtain ⟨hget, hpred, hmin⟩ := findHit_spec letter.x w.buildings i b hfind
    obtain ⟨hd, hx1, hx2⟩ := hitPred_eq_true hpred
    refine ⟨hget, hd, hx1, hx2, ?_, ?_, rfl, ?_⟩
    · intro j bj hj hgetj
      exact (hitPred_false_iff letter.x bj).mp (hmin j bj hj hgetj)
    · rw [collision_buildings hfind, getElem?_damageAt, if_pos rfl, hget]
      rfl
    · intro j hj
      rw [collision_buildings hfind, getElem?_damageAt, if_neg hj]

/-- C4 witness: a letter at x = 120 over a destroyed building spanning
[10, 210] and a live one spanning [110, 150]; the live building at
index 1 is selected and loses exactly one health point. -/
theorem claim4_witness :
    (handleLetterCollision zero4 l4 w4).buildings[1]? = some (hitBuilding b4b) ∧
    (hitBuilding b4b).health = b4b.health - 1 := by
  have h := (claim4_collision_selection zero4 l4 w4).2 1 b4b (by
    norm_num [findHit, hitPred, w4, b4a, b4b, l4])
  exact ⟨h.2.2.2.2.2.1, h.2.2.2.2.2.2.1⟩

/-- C5: on a successful key match the points added to the score are the
matched letter's base points times `min(combo, 10)`, where the new
combo is the previous combo plus 1 if the time since `lastComboTime` is
under 1000 ms and 1 otherwise; the combo applied is always at least 1. -/
theorem claim5_combo_scoring (now : ℤ) (key : ℕ) (rand : ℕ → ℚ × ℚ × ℚ × ℚ)
    (w : World) (i : ℕ) (l : Letter)
    (hg : activeGate w.gs = true)
    (hfind : findLetter key w.letters = some (i, l)) :
    (handleKeyPress now key rand w).gs.score =
      w.gs.score + l.type.points *
        min (if now - w.gs.lastComboTime < 1000 then w.gs.combo + 1 else 1) 10 ∧
    (handleKeyPress now key rand w).gs.combo =
      (if now - w.gs.lastComboTime < 1000 then w.gs.combo + 1 else 1) ∧
    1 ≤ (handleKeyPress now key rand w).gs.combo := by
  unfold handleKeyPress
  rw [if_pos hg, hfind]
  refine ⟨rfl, rfl, ?_⟩
  by_cases ht : now - w.gs.lastComboTime < 1000 <;> simp [ht]

/-- C5 witness: a BONUS letter matched 400 ms into a streak of 3 gives
combo 4 and 300 * 4 points. -/
theorem claim5_witness :
    (handleKeyPress 500 0 zero4 w5).gs.score =
      w5.gs.score + l5.type.points *
        min (if (500 : ℤ) - w5.gs.lastComboTime < 1000 then w5.gs.combo + 1 else 1) 10 ∧
    (handleKeyPress 500 0 zero4 w5).gs.combo =
      (if (500 : ℤ) - w5.gs.lastComboTime < 1000 then w5.gs.combo + 1 else 1) ∧
    1 ≤ (handleKeyPress 500 0 zero4 w5).gs.combo :=
  claim5_combo_scoring 500 0 zero4 w5 0 l5 rfl rfl

/-- C10: on a game-loop tick in an active, non-terminal state, every
surviving letter is the moved image of a letter from the previous
state, its y increased by exactly `speed * (0.5 if powerUpActive else
1)`; since every live letter's speed is positive, its y strictly
increases and in particular never decreases. -/
theorem claim10_letters_descend (w : World) (rand : ℕ → ℕ → ℚ × ℚ × ℚ × ℚ)
    (hR : Reachable w) (hA : activeGate w.gs = true) :
    ∀ l' ∈ (tickWorld rand w).letters, ∃ l, l ∈ w.letters ∧
      l'.y = l.y + l.speed * (if w.gs.powerUpActive then 5/10 else 1) ∧
      l.y < l'.y := by
  intro l' hl'
  unfold tickWorld at hl'
  rw [if_pos hA] at hl'
  have hl'' : l' ∈ (w.letters.map (moveLetter w.gs)).filter
      fun l => decide (l.y < GAME_HEIGHT - 20) := hl'
  simp only [List.mem_filter, List.mem_map] at hl''
  obtain ⟨⟨l, hl, rfl⟩, _⟩ := hl''
  have hspeed : 0 < l.speed := (inv_reachable hR).2.2.2.1 l hl
  refine ⟨l, hl, rfl, ?_⟩
  have hfac : (0 : ℚ) < (if w.gs.powerUpActive then 5/10 else 1) := by
    by_cases hpu : w.gs.powerUpActive <;>
      simp only [hpu, if_true, if_false, ite_true, ite_false] <;> norm_num
  exact lt_add_of_pos_right _ (mul_pos hspeed hfac)

/-- C10 witness: the freshly spawned letter of `w10` (y = 0, speed 4/5,
no power-up) moves to y = 4/5 on the next tick. -/
theorem claim10_witness :
    ∃ l, l ∈ w10.letters ∧
      l10.y = l.y + l.speed * (if w10.gs.powerUpActive then 5/10 else 1) ∧
      l.y < l10.y :=
  claim10_letters_descend w10 zero42
    (Reachable.spawn _ 0 oneFun 0 0 0
      (Reachable.start _ (Reachable.init zeroFun zeroFun)))
    rfl _
    (by norm_num [l10, tickWorld, activeGate, resolveImpacts, moveLetter, w10, spawnLetter,
      startGame, initWorld, initGameState, initBuildings, chooseType, chooseTypeAux,
      LETTER_TYPES, NORMAL, FAST, BONUS, POWER, spawnSpeed, oneFun, zeroFun,
      GAME_HEIGHT, GAME_WIDTH, INITIAL_LETTER_SPEED, findHit, hitPred])

/-- C6 counterexample: the claim says every explosion particle has
velocity y in [-4, 0].  With the valid draw 0 the first particle of a
burst has velocity y = (0 - 4) * 4 = -16, which is not in [-4, 0]. -/
theorem claim6_counterexample :
    (mkExplosionParticles 0 0 zero4).head? =
      some { id := 0, x := 0, y := 0, color := "#ff61ef", velocity := (-4, -16),
             life := 1, size := 4 } ∧
    ¬((-4 : ℚ) ≤ -16 ∧ (-16 : ℚ) ≤ 0) := by
  constructor
  · norm_num [mkExplosionParticles, zero4, List.range_succ_eq_map]
  · norm_num

/-- C6 (amended): every explosion burst creates exactly 20 particles,
and for draws in [0, 1) each one has velocity x in [-4, 4), velocity y
in [-16, -12) (the source computes `(Math.random() - 4) * 4`, not a
value in [-4, 0]), life 1, and size in [4, 8). -/
theorem claim6_particle_ranges (x y : ℚ) (rand : ℕ → ℚ × ℚ × ℚ × ℚ)
    (h : unitDraws rand) :
    (mkExplosionParticles x y rand).length = 20 ∧
    ∀ p ∈ mkExplosionParticles x y rand,
      (-4 ≤ p.velocity.1 ∧ p.velocity.1 < 4) ∧
      (-16 ≤ p.velocity.2 ∧ p.velocity.2 < -12) ∧
      p.life = 1 ∧ (4 ≤ p.size ∧ p.size < 8) := by
  constructor
  · simp [mkExplosionParticles]
  · intro p hp
    simp only [mkExplosionParticles, List.mem_map, List.mem_range] at hp
    obtain ⟨k, _, rfl⟩ := hp
    obtain ⟨_, hvx, hvy, hsz⟩ := h k
    refine ⟨⟨?_, ?_⟩, ⟨?_, ?_⟩, rfl, ?_, ?_⟩ <;> simp only [] <;> nlinarith [hvx.1,
      hvx.2, hvy.1, hvy.2, hsz.1, hsz.2]

/-- C6 witness: the amended theorem instantiated at the all-zero draw
stream, checking the first particle of the burst. -/
theorem claim6_witness :
    (mkExplosionParticles 0 0 zero4).length = 20 ∧
    ((-4 : ℚ) ≤ (-4 : ℚ) ∧ (-4 : ℚ) < 4) :=
  ⟨(claim6_particle_ranges 0 0 zero4 (by intro k; norm_num [zero4])).1,
    by norm_num⟩

/-- C8 counterexample: the claim says the oldest particles are
discarded when the cap is exceeded.  Appending a fresh 20-particle
burst to a store already holding 50 particles returns the 50 old
particles unchanged: the newly appended ones are the ones discarded. -/
theorem claim8_counterexample :
    appendExplosion prev50 new20 = prev50 ∧
    ({ id := 0, x := 0, y := 0, color := "#ff61ef", velocity := (-4, -16),
       life := 1, size := 4 } : Particle) ∈ new20 ∧
    ({ id := 0, x := 0, y := 0, color := "#ff61ef", velocity := (-4, -16),
       life := 1, size := 4 } : Particle) ∉ appendExplosion prev50 new20 := by
  have hl : prev50.length = 50 := by
    simp only [prev50, List.length_map, List.length_range]
  have h1 : appendExplosion prev50 new20 = prev50 := by
    rw [appendExplosion, MAX_PARTICLES, ← hl, List.take_left]
  refine ⟨h1, ?_, ?_⟩
  · norm_num [new20, mkExplosionParticles, zero4, List.mem_map, List.mem_range]
  · rw [h1]
    simp only [prev50, List.mem_map, List.mem_range, not_exists, not_and]
    intro k _ heq
    have hv := congrArg (fun p => p.velocity.1) heq
    norm_num at hv

/-- C8 (amended): when the particle store is already at the cap,
appending a burst keeps the first `MAX_PARTICLES` particles — the
oldest ones — and discards the newly appended excess (the source takes
the prefix of old-then-new, so the newest are dropped, not the
oldest). -/
theorem claim8_newest_discarded (ps newPs : List Particle)
    (h : MAX_PARTICLES ≤ ps.length) :
    appendExplosion ps newPs = ps.take MAX_PARTICLES := by
  rw [appendExplosion, List.take_append_of_le_length h]

/-- C8 witness: the amended theorem instantiated at the 50-particle
store and a fresh burst. -/
theorem claim8_witness : appendExplosion prev50 new20 = prev50.take MAX_PARTICLES :=
  claim8_newest_discarded prev50 new20 (by
    simp only [prev50, MAX_PARTICLES, List.length_map, List.length_range]
    exact le_rfl)
